import Mathlib

/-!
# Verification of the GitHub traffic dashboard script (`sniffTraffic.py`)

Shallow embedding of the merge-and-persist pipeline of `sniffTraffic.py`:
the script fetches daily clone and view series plus a referrers table from
the GitHub traffic API, merges the two series into a date-indexed table
(pandas outer merge on `date`, sorted by date), appends only rows whose date
is not already present in `traffic_data.csv`, and renders an HTML dashboard
to the fixed file `main.html`.

Modelling decisions:
* Calendar time: a raw API timestamp is a `Nat` number of seconds; the
  pandas normalisation `pd.to_datetime(...).dt.date` (strip time of day)
  becomes integer division by 86400, so a calendar date is a `Nat` day index.
* A pandas `NaN` metric cell (produced by the outer merge for a date present
  on only one side) is `Option.none`.
* `pd.DataFrame(list)` of an empty list has no columns, so the column access
  `df['timestamp']` raises `KeyError`; the embedding returns
  `Except.error "KeyError: timestamp"` in exactly that situation.
* File-system and network effects are made explicit: the CSV file is an
  explicit `Option CsvFile` value threaded through the run, and the whole
  `__main__` block is a function of the command-line arguments, the
  `GITHUB_TOKEN` environment variable and the three fetch outcomes, which
  returns an exit code, a list of performed effects and the final CSV state.
-/

/-- A raw record of the `clones` / `views` arrays returned by the GitHub
traffic API: `{timestamp, count, uniques}`.  The timestamp is in seconds. -/
structure SeriesRec where
  timestamp : Nat
  count : Nat
  uniques : Nat
deriving DecidableEq, Repr

/-- `pd.to_datetime(ts).dt.date`: strip the time of day, keeping the
calendar date (day index). -/
def toDate (ts : Nat) : Nat := ts / 86400

/-- A record of the normalised frame `df[['date', 'count', 'uniques']]`. -/
structure DayRec where
  date : Nat
  count : Nat
  uniques : Nat
deriving DecidableEq, Repr

/-- The normalisation step `df['date'] = pd.to_datetime(df['timestamp']).dt.date`
followed by the projection `df[['date', 'count', 'uniques']]`. -/
def toDaily (l : List SeriesRec) : List DayRec :=
  l.map (fun s => ⟨toDate s.timestamp, s.count, s.uniques⟩)

/-- A row of the merged table, after the rename
`df_new.columns = ['date','clones','clones_uniques','views','views_uniques']`.
Metric cells are `Option Nat`: `none` is pandas `NaN`. -/
structure TrafficRow where
  date : Nat
  clones : Option Nat
  clones_uniques : Option Nat
  views : Option Nat
  views_uniques : Option Nat
deriving DecidableEq, Repr

/-- See `outerMerge`: one left (clone) row of the merge is paired with every
right (view) row of the same date, or kept alone with `NaN` view metrics
when no right row matches. -/
def mergeLeft (vw : List DayRec) (c : DayRec) : List TrafficRow :=
  let hits := vw.filter (fun v => v.date == c.date)
  if hits.isEmpty then
    [⟨c.date, some c.count, some c.uniques, none, none⟩]
  else
    hits.map (fun v => ⟨c.date, some c.count, some c.uniques, some v.count, some v.uniques⟩)

/-- See `outerMerge`: the right rows kept by the outer merge are those whose
date matches no left row. -/
def mergeRight (cl vw : List DayRec) : List TrafficRow :=
  (vw.filter (fun v => cl.all (fun c => !(c.date == v.date)))).map
    (fun v => ⟨v.date, none, none, some v.count, some v.uniques⟩)

/-- `pd.merge(df_cl, df_vw, on='date', how='outer', suffixes=('_clones','_views'))`,
split into `mergeLeft` and `mergeRight`. -/
def outerMerge (cl vw : List DayRec) : List TrafficRow :=
  cl.flatMap (mergeLeft vw) ++ mergeRight cl vw

/-- The comparison used by `sort_values('date')`. -/
def dateLE (a b : TrafficRow) : Prop := a.date ≤ b.date

instance : DecidableRel dateLE := fun a b => Nat.decLe a.date b.date

instance : IsTotal TrafficRow dateLE := ⟨fun a b => Nat.le_total a.date b.date⟩

instance : IsTrans TrafficRow dateLE := ⟨fun _ _ _ hab hbc => Nat.le_trans hab hbc⟩

/-- `df.sort_values('date')`. -/
def sortByDate (l : List TrafficRow) : List TrafficRow :=
  List.insertionSort dateLE l

/-- The new-data table `df_new`: outer merge of the two normalised series,
sorted ascending by date and renamed to the five persisted columns. -/
def df_new (clones views : List SeriesRec) : List TrafficRow :=
  sortByDate (outerMerge (toDaily clones) (toDaily views))

/-- The persisted CSV file `traffic_data.csv`: a header line and typed rows. -/
structure CsvFile where
  header : List String
  rows : List TrafficRow
deriving DecidableEq, Repr

/-- The fixed column order written by the script:
`date,clones,clones_uniques,views,views_uniques`. -/
def csvHeader : List String :=
  ["date", "clones", "clones_uniques", "views", "views_uniques"]

/-- What a run of `fetch_and_update_csv` produces: the returned frame
`df_updated`, the CSV file state after the call, whether `to_csv` was
called, and the message printed. -/
structure RunOutput where
  df_updated : List TrafficRow
  fileAfter : CsvFile
  written : Bool
  message : String
deriving DecidableEq, Repr

/-- The rows selected by `mask = ~df_new['date'].isin(df_exist['date'])`:
the rows of the new-data table whose date is not already persisted. -/
def df_append (clones views : List SeriesRec) (f : CsvFile) : List TrafficRow :=
  (df_new clones views).filter
    (fun r => !((f.rows.map TrafficRow.date).contains r.date))

/-- `fetch_and_update_csv`, given the already-fetched `clones` and `views`
arrays and the current state of `traffic_data.csv` (`none` when the file
does not exist).  An empty fetched array yields a frame without a
`timestamp` column, so the date normalisation raises `KeyError`. -/
def fetch_and_update_csv (clones views : List SeriesRec) (file : Option CsvFile) :
    Except String RunOutput :=
  if clones.isEmpty || views.isEmpty then
    .error "KeyError: timestamp"
  else
    match file with
    | some df_exist =>
        let df_append := df_append clones views df_exist
        if df_append.isEmpty then
          .ok ⟨df_exist.rows, df_exist, false, "Aucune nouvelle donnée à ajouter au CSV."⟩
        else
          let df_updated := sortByDate (df_exist.rows ++ df_append)
          let n := df_append.length
          .ok ⟨df_updated, ⟨df_exist.header, df_updated⟩, true,
               s!"Ajout de {n} nouvelles lignes au CSV : traffic_data.csv"⟩
    | none =>
        let n := (df_new clones views).length
        .ok ⟨df_new clones views, ⟨csvHeader, df_new clones views⟩, true,
             s!"CSV créé avec {n} lignes : traffic_data.csv"⟩

/-- The CSV file state after a call of `fetch_and_update_csv`: a raised
exception aborts the function before any write, leaving the file as it was. -/
def fileAfterRun (clones views : List SeriesRec) (file : Option CsvFile) : Option CsvFile :=
  match fetch_and_update_csv clones views file with
  | .ok o => some o.fileAfter
  | .error _ => file

/-- The rows persisted in a possibly non-existing CSV file: an absent file
persists no rows. -/
def csvRows : Option CsvFile → List TrafficRow
  | some f => f.rows
  | none => []

/-- A record of the referrers table (`fetch_referrers`). -/
structure ReferrerRec where
  referrer : String
  count : Nat
  uniques : Nat
deriving DecidableEq, Repr

/-- `BASE_API.format(owner=owner, repo=repo)`. -/
def BASE_API (owner repo : String) : String :=
  s!"https://api.github.com/repos/{owner}/{repo}"

/-- The output path computed in `__main__`: `out = f"main.html"` — a fixed
name that ignores both command-line arguments. -/
def outputFile (owner repo : String) : String :=
  let _ := owner
  let _ := repo
  "main.html"

/-- An observable side effect of a run. -/
inductive Effect where
  /-- A `print(...)` call. -/
  | printMsg : String → Effect
  /-- A `requests.get(url, ...)` call issued by `request_json`. -/
  | netGet : String → Effect
  /-- A read of the persisted CSV file (`pd.read_csv`). -/
  | readCsv : Effect
  /-- A write of the persisted CSV file (`to_csv`). -/
  | writeCsv : Effect
  /-- The write of the rendered HTML document, to the given path. -/
  | writeHtml : String → Effect
deriving DecidableEq, Repr

/-- Whether an effect touches the network or the file system (anything but
a `print`). -/
def Effect.touchesWorld : Effect → Bool
  | .printMsg _ => false
  | _ => true

/-- Result of a whole program run. -/
structure MainResult where
  exitCode : Nat
  effects : List Effect
  csvAfter : Option CsvFile
  htmlWritten : Bool
deriving DecidableEq, Repr

/-- The effects performed inside `fetch_and_update_csv` after both fetches
succeeded: a CSV read when the file exists, a CSV write exactly when
`to_csv` is reached, and the printed message. -/
def mergeEffects (clones views : List SeriesRec) (file : Option CsvFile) : List Effect :=
  (if file.isSome then [Effect.readCsv] else []) ++
  (match fetch_and_update_csv clones views file with
   | .ok o => (if o.written then [Effect.writeCsv] else []) ++ [Effect.printMsg o.message]
   | .error _ => [])

/-- The `__main__` block as a function of the command line `argv`, the
`GITHUB_TOKEN` environment variable, the outcome of the three HTTP fetches
(clones, views, referrers — each either the decoded array or a transport /
HTTP error) and the initial state of `traffic_data.csv`.  An uncaught
Python exception terminates the process with a non-zero exit code. -/
def mainRun (argv : List String) (github_token : Option String)
    (clonesRes viewsRes : Except String (List SeriesRec))
    (refsRes : Except String (List ReferrerRec))
    (file : Option CsvFile) : MainResult :=
  match argv with
  | [_prog, owner, repo] =>
      match github_token with
      | none =>
          ⟨1, [.printMsg "Erreur: définir GITHUB_TOKEN"], file, false⟩
      | some tok =>
          if tok = "" then
            ⟨1, [.printMsg "Erreur: définir GITHUB_TOKEN"], file, false⟩
          else
            let clonesUrl := s!"{BASE_API owner repo}/traffic/clones"
            let viewsUrl := s!"{BASE_API owner repo}/traffic/views"
            let refsUrl := s!"{BASE_API owner repo}/traffic/popular/referrers"
            match clonesRes with
            | .error _ => ⟨1, [.netGet clonesUrl], file, false⟩
            | .ok clones =>
                match viewsRes with
                | .error _ => ⟨1, [.netGet clonesUrl, .netGet viewsUrl], file, false⟩
                | .ok views =>
                    let fetchEffs := [Effect.netGet clonesUrl, Effect.netGet viewsUrl]
                    match fetch_and_update_csv clones views file with
                    | .error _ =>
                        ⟨1, fetchEffs ++ mergeEffects clones views file, file, false⟩
                    | .ok o =>
                        match refsRes with
                        | .error _ =>
                            ⟨1, fetchEffs ++ mergeEffects clones views file ++ [.netGet refsUrl],
                             some o.fileAfter, false⟩
                        | .ok _refs =>
                            ⟨0, fetchEffs ++ mergeEffects clones views file ++
                                  [.netGet refsUrl, .writeHtml (outputFile owner repo),
                                   .printMsg s!"Dashboard HTML généré : {outputFile owner repo}"],
                             some o.fileAfter, true⟩
  | _ =>
      ⟨1, [.printMsg "Usage: python get_traffic_dashboard.py <owner> <repo>"], file, false⟩

/-! ## Generic helper lemmas about counting rows by key -/

/-- Rows of `l` with key `d` number at most one when the keys are distinct. -/
theorem countP_key_le_one {α : Type} (key : α → Nat) {l : List α}
    (h : (l.map key).Nodup) (d : Nat) :
    l.countP (fun x => key x == d) ≤ 1 := by
  have h1 : l.countP (fun x => key x == d) = (l.map key).count d := by
    rw [List.count_eq_countP, List.countP_map]
    rfl
  rw [h1]
  exact (List.nodup_iff_count_le_one.mp h) d

/-- The count of rows with key `d` is positive exactly when `d` occurs as a key. -/
theorem countP_key_pos {α : Type} (key : α → Nat) (l : List α) (d : Nat) :
    0 < l.countP (fun x => key x == d) ↔ d ∈ l.map key := by
  rw [List.countP_pos_iff]
  constructor
  · rintro ⟨a, ha, hk⟩
    exact List.mem_map.mpr ⟨a, ha, by simpa using hk⟩
  · rintro hm
    rcases List.mem_map.mp hm with ⟨a, ha, hk⟩
    exact ⟨a, ha, by simpa using hk⟩

/-- With distinct keys, the count of rows with key `d` is exactly the
indicator of `d` occurring among the keys. -/
theorem countP_key_eq {α : Type} (key : α → Nat) {l : List α}
    (h : (l.map key).Nodup) (d : Nat) :
    l.countP (fun x => key x == d) = if d ∈ l.map key then 1 else 0 := by
  by_cases hd : d ∈ l.map key
  · rw [if_pos hd]
    have h1 := (countP_key_pos key l d).mpr hd
    have h2 := countP_key_le_one key h d
    omega
  · rw [if_neg hd]
    have h1 : ¬(0 < l.countP (fun x => key x == d)) :=
      fun hc => hd ((countP_key_pos key l d).mp hc)
    omega

/-! ## Helper lemmas about `sortByDate` -/

theorem sortByDate_perm (l : List TrafficRow) : List.Perm (sortByDate l) l :=
  List.perm_insertionSort dateLE l

theorem mem_sortByDate {l : List TrafficRow} {r : TrafficRow} :
    r ∈ sortByDate l ↔ r ∈ l :=
  (sortByDate_perm l).mem_iff

theorem sortByDate_sorted (l : List TrafficRow) : List.Sorted dateLE (sortByDate l) :=
  List.sorted_insertionSort dateLE l

theorem countP_sortByDate (p : TrafficRow → Bool) (l : List TrafficRow) :
    (sortByDate l).countP p = l.countP p :=
  (sortByDate_perm l).countP_eq p

theorem dates_sortByDate_perm (l : List TrafficRow) :
    List.Perm ((sortByDate l).map TrafficRow.date) (l.map TrafficRow.date) :=
  (sortByDate_perm l).map TrafficRow.date

theorem mem_dates_sortByDate {l : List TrafficRow} {d : Nat} :
    d ∈ (sortByDate l).map TrafficRow.date ↔ d ∈ l.map TrafficRow.date :=
  (dates_sortByDate_perm l).mem_iff

theorem nodup_dates_sortByDate {l : List TrafficRow} :
    ((sortByDate l).map TrafficRow.date).Nodup ↔ (l.map TrafficRow.date).Nodup :=
  (dates_sortByDate_perm l).nodup_iff

/-- A list sorted weakly by date whose dates are distinct is sorted strictly. -/
theorem pairwise_lt_of_sorted_nodup {l : List TrafficRow}
    (hs : List.Sorted dateLE l) (hn : (l.map TrafficRow.date).Nodup) :
    List.Pairwise (fun a b : TrafficRow => a.date < b.date) l := by
  have hne : List.Pairwise (fun a b : TrafficRow => a.date ≠ b.date) l :=
    (List.pairwise_map).mp hn
  exact (hs.and hne).imp (fun hab => Nat.lt_of_le_of_ne hab.1 hab.2)

/-! ## Helper lemmas about the outer merge -/

theorem mergeLeft_date {vw : List DayRec} {c : DayRec} :
    ∀ r ∈ mergeLeft vw c, r.date = c.date := by
  intro r hr
  unfold mergeLeft at hr
  by_cases h : (vw.filter (fun v => v.date == c.date)).isEmpty
  · simp only [h, if_pos] at hr
    simp only [List.mem_singleton] at hr
    subst hr; rfl
  · simp only [h, if_neg, Bool.false_eq_true, not_false_iff] at hr
    rcases List.mem_map.mp hr with ⟨v, _, hv⟩
    subst hv; rfl

theorem mergeLeft_ne_nil (vw : List DayRec) (c : DayRec) : mergeLeft vw c ≠ [] := by
  unfold mergeLeft
  by_cases h : (vw.filter (fun v => v.date == c.date)).isEmpty
  · simp [h]
  · simp only [h, if_neg, Bool.false_eq_true, not_false_iff]
    intro hmap
    rcases List.map_eq_nil_iff.mp hmap with hnil
    exact h (by simp [hnil])

theorem length_mergeLeft {vw : List DayRec} (hvw : (vw.map DayRec.date).Nodup) (c : DayRec) :
    (mergeLeft vw c).length = 1 := by
  unfold mergeLeft
  by_cases h : (vw.filter (fun v => v.date == c.date)).isEmpty
  · simp [h]
  · simp only [h, if_neg, Bool.false_eq_true, not_false_iff, List.length_map]
    have hle : (vw.filter (fun v => v.date == c.date)).length ≤ 1 := by
      rw [← List.countP_eq_length_filter]
      exact countP_key_le_one DayRec.date hvw c.date
    have hne : vw.filter (fun v => v.date == c.date) ≠ [] := by
      simpa [List.isEmpty_iff] using h
    have hpos : 0 < (vw.filter (fun v => v.date == c.date)).length :=
      List.length_pos.mpr hne
    omega

/-- Counting rows by date in a list whose rows all share one date. -/
theorem countP_date_const {l : List TrafficRow} {e : Nat}
    (hall : ∀ r ∈ l, r.date = e) (d : Nat) :
    l.countP (fun r => r.date == d) = if e == d then l.length else 0 := by
  by_cases hed : e = d
  · subst hed
    rw [if_pos (by simp)]
    rw [List.countP_eq_length]
    intro r hr
    simp [hall r hr]
  · rw [if_neg (by simpa using hed)]
    rw [List.countP_eq_zero]
    intro r hr
    simp [hall r hr, hed]

theorem countP_mergeLeft {vw : List DayRec} (hvw : (vw.map DayRec.date).Nodup)
    (c : DayRec) (d : Nat) :
    (mergeLeft vw c).countP (fun r => r.date == d) = if c.date == d then 1 else 0 := by
  rw [countP_date_const (mergeLeft_date) d, length_mergeLeft hvw c]

theorem countP_flatMap_mergeLeft {vw : List DayRec} (hvw : (vw.map DayRec.date).Nodup)
    (cl : List DayRec) (d : Nat) :
    (cl.flatMap (mergeLeft vw)).countP (fun r => r.date == d) =
      cl.countP (fun c => c.date == d) := by
  induction cl with
  | nil => rfl
  | cons c cl ih =>
      rw [List.flatMap_cons, List.countP_append, countP_mergeLeft hvw c d, ih,
          List.countP_cons]
      omega

theorem countP_mergeRight {cl vw : List DayRec} (hvw : (vw.map DayRec.date).Nodup)
    (d : Nat) :
    (mergeRight cl vw).countP (fun r => r.date == d) =
      if d ∈ vw.map DayRec.date ∧ d ∉ cl.map DayRec.date then 1 else 0 := by
  unfold mergeRight
  rw [List.countP_map]
  have hcomp : ((fun r : TrafficRow => r.date == d) ∘
      (fun v : DayRec => (⟨v.date, none, none, some v.count, some v.uniques⟩ : TrafficRow))) =
      (fun v : DayRec => v.date == d) := rfl
  rw [hcomp, List.countP_filter]
  by_cases hd : d ∈ cl.map DayRec.date
  · rw [if_neg (by simp [hd])]
    rw [List.countP_eq_zero]
    intro v _ hcontra
    simp only [Bool.and_eq_true, beq_iff_eq, List.all_eq_true] at hcontra
    rcases hcontra with ⟨hvd, hall⟩
    rcases List.mem_map.mp hd with ⟨c, hc, hcd⟩
    have := hall c hc
    simp [hvd, hcd] at this
  · have hpt : ∀ v ∈ vw,
        (((v.date == d) && cl.all (fun c => !(c.date == v.date))) = true ↔
          (v.date == d) = true) := by
      intro v _
      constructor
      · intro hb
        exact (Bool.and_eq_true _ _).mp hb |>.1
      · intro hb
        rw [Bool.and_eq_true]
        refine ⟨hb, ?_⟩
        rw [List.all_eq_true]
        intro c hc
        simp only [Bool.not_eq_true']
        rw [beq_eq_false_iff_ne]
        intro hceq
        apply hd
        have hvd : v.date = d := beq_iff_eq.mp hb
        exact List.mem_map.mpr ⟨c, hc, by rw [hceq, hvd]⟩
    rw [List.countP_congr hpt, countP_key_eq DayRec.date hvw d]
    by_cases hv : d ∈ vw.map DayRec.date <;> simp [hv, hd]

theorem countP_outerMerge {cl vw : List DayRec}
    (hcl : (cl.map DayRec.date).Nodup) (hvw : (vw.map DayRec.date).Nodup) (d : Nat) :
    (outerMerge cl vw).countP (fun r => r.date == d) =
      if d ∈ cl.map DayRec.date ∨ d ∈ vw.map DayRec.date then 1 else 0 := by
  unfold outerMerge
  rw [List.countP_append, countP_flatMap_mergeLeft hvw cl d, countP_mergeRight hvw d,
      countP_key_eq DayRec.date hcl d]
  by_cases h1 : d ∈ cl.map DayRec.date <;> by_cases h2 : d ∈ vw.map DayRec.date <;>
    simp [h1, h2]

/-- Every row of the outer merge is of one of three shapes: a clone-only row
(no matching view date) with null view metrics, a fully matched row, or a
view-only row (no matching clone date) with null clone metrics. -/
theorem outerMerge_row_cases {cl vw : List DayRec} {r : TrafficRow}
    (hr : r ∈ outerMerge cl vw) :
    (∃ c ∈ cl, r = ⟨c.date, some c.count, some c.uniques, none, none⟩ ∧
       c.date ∉ vw.map DayRec.date) ∨
    (∃ c ∈ cl, ∃ v ∈ vw, v.date = c.date ∧
       r = ⟨c.date, some c.count, some c.uniques, some v.count, some v.uniques⟩) ∨
    (∃ v ∈ vw, r = ⟨v.date, none, none, some v.count, some v.uniques⟩ ∧
       v.date ∉ cl.map DayRec.date) := by
  rcases List.mem_append.mp hr with hl | hrr
  · rcases List.mem_flatMap.mp hl with ⟨c, hc, hmem⟩
    unfold mergeLeft at hmem
    by_cases hemp : (vw.filter (fun v => v.date == c.date)).isEmpty
    · simp only [hemp, if_pos, List.mem_singleton] at hmem
      left
      refine ⟨c, hc, hmem, ?_⟩
      intro hin
      rcases List.mem_map.mp hin with ⟨v, hv, hvd⟩
      have hnil : vw.filter (fun v => v.date == c.date) = [] := List.isEmpty_iff.mp hemp
      have := List.filter_eq_nil_iff.mp hnil v hv
      simp [hvd] at this
    · simp only [hemp, if_neg, Bool.false_eq_true, not_false_iff] at hmem
      rcases List.mem_map.mp hmem with ⟨v, hvf, hveq⟩
      rcases List.mem_filter.mp hvf with ⟨hv, hvd⟩
      right; left
      exact ⟨c, hc, v, hv, beq_iff_eq.mp hvd, hveq.symm⟩
  · unfold mergeRight at hrr
    rcases List.mem_map.mp hrr with ⟨v, hvf, hveq⟩
    rcases List.mem_filter.mp hvf with ⟨hv, hall⟩
    right; right
    refine ⟨v, hv, hveq.symm, ?_⟩
    intro hin
    rcases List.mem_map.mp hin with ⟨c, hc, hcd⟩
    have := List.all_eq_true.mp hall c hc
    simp [hcd] at this

/-- The dates of the outer merge are exactly the union of the two series'
dates. -/
theorem dates_outerMerge {cl vw : List DayRec} {d : Nat} :
    d ∈ (outerMerge cl vw).map TrafficRow.date ↔
      d ∈ cl.map DayRec.date ∨ d ∈ vw.map DayRec.date := by
  constructor
  · intro hd
    rcases List.mem_map.mp hd with ⟨r, hr, hrd⟩
    rcases outerMerge_row_cases hr with ⟨c, hc, hre, _⟩ | ⟨c, hc, v, hv, _, hre⟩ | ⟨v, hv, hre, _⟩
    · left
      exact List.mem_map.mpr ⟨c, hc, by rw [← hrd, hre]⟩
    · left
      exact List.mem_map.mpr ⟨c, hc, by rw [← hrd, hre]⟩
    · right
      exact List.mem_map.mpr ⟨v, hv, by rw [← hrd, hre]⟩
  · intro hd
    by_cases hc : d ∈ cl.map DayRec.date
    · rcases List.mem_map.mp hc with ⟨c, hcm, hcd⟩
      rcases List.exists_mem_of_ne_nil _ (mergeLeft_ne_nil vw c) with ⟨r, hr⟩
      refine List.mem_map.mpr ⟨r, ?_, ?_⟩
      · exact List.mem_append.mpr (.inl (List.mem_flatMap.mpr ⟨c, hcm, hr⟩))
      · rw [mergeLeft_date r hr, hcd]
    · rcases hd with hd | hd
      · exact absurd hd hc
      rcases List.mem_map.mp hd with ⟨v, hvm, hvd⟩
      have hkeep : v ∈ vw.filter (fun v => cl.all (fun c => !(c.date == v.date))) := by
        rw [List.mem_filter]
        refine ⟨hvm, ?_⟩
        rw [List.all_eq_true]
        intro c hcm
        simp only [Bool.not_eq_true']
        rw [beq_eq_false_iff_ne]
        intro hceq
        exact hc (List.mem_map.mpr ⟨c, hcm, by rw [hceq, hvd]⟩)
      refine List.mem_map.mpr ⟨⟨v.date, none, none, some v.count, some v.uniques⟩, ?_, hvd⟩
      exact List.mem_append.mpr (.inr (List.mem_map.mpr ⟨v, hkeep, rfl⟩))

/-- With distinct dates on each side, the outer merge has distinct dates. -/
theorem nodup_dates_outerMerge {cl vw : List DayRec}
    (hcl : (cl.map DayRec.date).Nodup) (hvw : (vw.map DayRec.date).Nodup) :
    ((outerMerge cl vw).map TrafficRow.date).Nodup := by
  rw [List.nodup_iff_count_le_one]
  intro d
  have hc : ((outerMerge cl vw).map TrafficRow.date).count d =
      (outerMerge cl vw).countP (fun r => r.date == d) := by
    rw [List.count_eq_countP, List.countP_map]
    rfl
  rw [hc, countP_outerMerge hcl hvw d]
  split <;> omega

/-! ## Helper lemmas about `df_new` -/

theorem sorted_df_new (clones views : List SeriesRec) :
    List.Sorted dateLE (df_new clones views) :=
  sortByDate_sorted _

theorem mem_df_new {clones views : List SeriesRec} {r : TrafficRow} :
    r ∈ df_new clones views ↔ r ∈ outerMerge (toDaily clones) (toDaily views) :=
  mem_sortByDate

theorem countP_df_new {clones views : List SeriesRec}
    (hcl : ((toDaily clones).map DayRec.date).Nodup)
    (hvw : ((toDaily views).map DayRec.date).Nodup) (d : Nat) :
    (df_new clones views).countP (fun r => r.date == d) =
      if d ∈ (toDaily clones).map DayRec.date ∨ d ∈ (toDaily views).map DayRec.date
      then 1 else 0 := by
  rw [df_new, countP_sortByDate, countP_outerMerge hcl hvw]

theorem dates_df_new {clones views : List SeriesRec} {d : Nat} :
    d ∈ (df_new clones views).map TrafficRow.date ↔
      d ∈ (toDaily clones).map DayRec.date ∨ d ∈ (toDaily views).map DayRec.date :=
  mem_dates_sortByDate.trans dates_outerMerge

theorem nodup_dates_df_new {clones views : List SeriesRec}
    (hcl : ((toDaily clones).map DayRec.date).Nodup)
    (hvw : ((toDaily views).map DayRec.date).Nodup) :
    ((df_new clones views).map TrafficRow.date).Nodup :=
  nodup_dates_sortByDate.mpr (nodup_dates_outerMerge hcl hvw)

/-! ## Helper lemmas about `fetch_and_update_csv` -/

/-- A successful call means neither fetched array was empty. -/
theorem fetch_nonempty {clones views : List SeriesRec} {file : Option CsvFile}
    {out : RunOutput}
    (h : fetch_and_update_csv clones views file = .ok out) :
    clones.isEmpty = false ∧ views.isEmpty = false := by
  have hb : (clones.isEmpty || views.isEmpty) = false := by
    by_contra hcon
    have hb' : (clones.isEmpty || views.isEmpty) = true := by
      revert hcon
      cases clones.isEmpty || views.isEmpty <;> simp
    unfold fetch_and_update_csv at h
    rw [if_pos hb'] at h
    exact Except.noConfusion h
  simpa using hb

/-- First-run branch: no CSV exists, the new-data table becomes the file. -/
theorem fetch_none_eq {clones views : List SeriesRec}
    (h1 : clones.isEmpty = false) (h2 : views.isEmpty = false) :
    fetch_and_update_csv clones views none =
      .ok ⟨df_new clones views, ⟨csvHeader, df_new clones views⟩, true,
           s!"CSV créé avec {(df_new clones views).length} lignes : traffic_data.csv"⟩ := by
  unfold fetch_and_update_csv
  rw [h1, h2]
  rfl

/-- No-new-data branch: every new date is already persisted, nothing is
written. -/
theorem fetch_some_noappend_eq {clones views : List SeriesRec}
    (h1 : clones.isEmpty = false) (h2 : views.isEmpty = false) {f : CsvFile}
    (he : df_append clones views f = []) :
    fetch_and_update_csv clones views (some f) =
      .ok ⟨f.rows, f, false, "Aucune nouvelle donnée à ajouter au CSV."⟩ := by
  unfold fetch_and_update_csv
  rw [h1, h2]
  simp [he]

/-- Append branch: the genuinely new rows are appended and re-sorted, and
the file is rewritten. -/
theorem fetch_some_append_eq {clones views : List SeriesRec}
    (h1 : clones.isEmpty = false) (h2 : views.isEmpty = false) {f : CsvFile}
    (he : df_append clones views f ≠ []) :
    fetch_and_update_csv clones views (some f) =
      .ok ⟨sortByDate (f.rows ++ df_append clones views f),
           ⟨f.header, sortByDate (f.rows ++ df_append clones views f)⟩, true,
           s!"Ajout de {(df_append clones views f).length} nouvelles lignes au CSV : traffic_data.csv"⟩ := by
  have he' : (df_append clones views f).isEmpty = false := by
    simpa [List.isEmpty_iff] using he
  unfold fetch_and_update_csv
  rw [h1, h2]
  simp [he']

/-- Inversion: a successful call took exactly one of the three branches. -/
theorem fetch_ok_inv {clones views : List SeriesRec} {file : Option CsvFile}
    {out : RunOutput}
    (h : fetch_and_update_csv clones views file = .ok out) :
    (file = none ∧
       out = ⟨df_new clones views, ⟨csvHeader, df_new clones views⟩, true,
              s!"CSV créé avec {(df_new clones views).length} lignes : traffic_data.csv"⟩) ∨
    (∃ f, file = some f ∧ df_append clones views f = [] ∧
       out = ⟨f.rows, f, false, "Aucune nouvelle donnée à ajouter au CSV."⟩) ∨
    (∃ f, file = some f ∧ df_append clones views f ≠ [] ∧
       out = ⟨sortByDate (f.rows ++ df_append clones views f),
              ⟨f.header, sortByDate (f.rows ++ df_append clones views f)⟩, true,
              s!"Ajout de {(df_append clones views f).length} nouvelles lignes au CSV : traffic_data.csv"⟩) := by
  obtain ⟨h1, h2⟩ := fetch_nonempty h
  cases file with
  | none =>
      left
      refine ⟨rfl, ?_⟩
      have := (@fetch_none_eq clones views h1 h2).symm.trans h
      exact (Except.ok.inj this).symm
  | some f =>
      by_cases he : df_append clones views f = []
      · right; left
        refine ⟨f, rfl, he, ?_⟩
        have := (fetch_some_noappend_eq h1 h2 he).symm.trans h
        exact (Except.ok.inj this).symm
      · right; right
        refine ⟨f, rfl, he, ?_⟩
        have := (fetch_some_append_eq h1 h2 he).symm.trans h
        exact (Except.ok.inj this).symm

/-! ## Claim theorems -/

/-- C10: for every owner and repo argument pair, the rendered HTML report is
written to the same fixed file name `main.html`; the output path does not
incorporate the owner or repository name, so successive runs against
different repositories overwrite each other's report. -/
theorem C10_fixed_output_path (o1 r1 o2 r2 : String) :
    outputFile o1 r1 = "main.html" ∧ outputFile o1 r1 = outputFile o2 r2 :=
  ⟨rfl, rfl⟩

/-- C2 counterexample: with zero records for both the clones and the views
series, `fetch_and_update_csv` does not complete without error — the date
normalisation raises `KeyError` because the empty frame has no `timestamp`
column — refuting the claim at this concrete input. -/
theorem C2_counterexample :
    fetch_and_update_csv [] []
        (some ⟨csvHeader, [⟨0, some 1, some 1, some 1, some 1⟩]⟩) =
      .error "KeyError: timestamp" ∧
    (fetch_and_update_csv [] []
        (some ⟨csvHeader, [⟨0, some 1, some 1, some 1, some 1⟩]⟩)).isOk = false :=
  ⟨rfl, rfl⟩

/-- C2 amended: if the upstream API returns zero records for both the clones
series and the views series, `fetch_and_update_csv` raises an uncaught
`KeyError` (the empty DataFrame has no `timestamp` column) instead of
completing; no "no new data" message is reported.  The error occurs before
any write, so the persisted dataset is left unchanged. -/
theorem C2_empty_fetch_raises (file : Option CsvFile) :
    fetch_and_update_csv [] [] file = .error "KeyError: timestamp" ∧
    fileAfterRun [] [] file = file :=
  ⟨rfl, rfl⟩

/-- C4: for every fetched clone series and view series (each holding at most
one record per calendar date, as the daily traffic API delivers), the merged
new-data table is their full outer join on calendar date: a date present in
only one of the two series appears exactly once, with the metrics from the
missing side null (`none`), not dropped and not zero-filled, and with the
metrics from the present side taken from that series. -/
theorem C4_outer_join_completeness (clones views : List SeriesRec)
    (hcl : ((toDaily clones).map DayRec.date).Nodup)
    (hvw : ((toDaily views).map DayRec.date).Nodup)
    (d : Nat)
    (hd : d ∈ (toDaily clones).map DayRec.date ∨ d ∈ (toDaily views).map DayRec.date) :
    (df_new clones views).countP (fun r => r.date == d) = 1 ∧
    ∀ r ∈ df_new clones views, r.date = d →
      (d ∉ (toDaily views).map DayRec.date → r.views = none ∧ r.views_uniques = none) ∧
      (d ∉ (toDaily clones).map DayRec.date → r.clones = none ∧ r.clones_uniques = none) ∧
      (d ∈ (toDaily clones).map DayRec.date →
         ∃ c ∈ toDaily clones, c.date = d ∧ r.clones = some c.count ∧
           r.clones_uniques = some c.uniques) ∧
      (d ∈ (toDaily views).map DayRec.date →
         ∃ v ∈ toDaily views, v.date = d ∧ r.views = some v.count ∧
           r.views_uniques = some v.uniques) := by
  constructor
  · rw [countP_df_new hcl hvw d, if_pos hd]
  · intro r hr hrd
    have hr' := mem_df_new.mp hr
    rcases outerMerge_row_cases hr' with
        ⟨c, hc, hre, hnv⟩ | ⟨c, hc, v, hv, hvd, hre⟩ | ⟨v, hv, hre, hnc⟩
    · have hcd : c.date = d := by rw [hre] at hrd; exact hrd
      refine ⟨fun _ => ⟨by rw [hre], by rw [hre]⟩, ?_, ?_, ?_⟩
      · intro hncl
        exact absurd (List.mem_map.mpr ⟨c, hc, hcd⟩) hncl
      · intro _
        exact ⟨c, hc, hcd, by rw [hre], by rw [hre]⟩
      · intro hdv
        exact absurd hdv (hcd ▸ hnv)
    · have hcd : c.date = d := by rw [hre] at hrd; exact hrd
      refine ⟨?_, ?_, ?_, ?_⟩
      · intro hnv'
        exact absurd (List.mem_map.mpr ⟨v, hv, hvd.trans hcd⟩) hnv'
      · intro hncl
        exact absurd (List.mem_map.mpr ⟨c, hc, hcd⟩) hncl
      · intro _
        exact ⟨c, hc, hcd, by rw [hre], by rw [hre]⟩
      · intro _
        exact ⟨v, hv, hvd.trans hcd, by rw [hre], by rw [hre]⟩
    · have hvd : v.date = d := by rw [hre] at hrd; exact hrd
      refine ⟨?_, fun _ => ⟨by rw [hre], by rw [hre]⟩, ?_, ?_⟩
      · intro hnv'
        exact absurd (List.mem_map.mpr ⟨v, hv, hvd⟩) hnv'
      · intro hdc
        exact absurd hdc (hvd ▸ hnc)
      · intro _
        exact ⟨v, hv, hvd, by rw [hre], by rw [hre]⟩

/-- C4 witness: a clone record on day 0 and a view record on day 1; day 0 is
clone-only, so its merged row exists exactly once with null view metrics. -/
theorem C4_outer_join_completeness_witness :
    (df_new [⟨0, 5, 2⟩] [⟨86400, 7, 3⟩]).countP (fun r => r.date == 0) = 1 ∧
    ∀ r ∈ df_new [⟨0, 5, 2⟩] [⟨86400, 7, 3⟩], r.date = 0 →
      (0 ∉ (toDaily [⟨86400, 7, 3⟩]).map DayRec.date → r.views = none ∧ r.views_uniques = none) ∧
      (0 ∉ (toDaily [⟨0, 5, 2⟩]).map DayRec.date → r.clones = none ∧ r.clones_uniques = none) ∧
      (0 ∈ (toDaily [⟨0, 5, 2⟩]).map DayRec.date →
         ∃ c ∈ toDaily [⟨0, 5, 2⟩], c.date = 0 ∧ r.clones = some c.count ∧
           r.clones_uniques = some c.uniques) ∧
      (0 ∈ (toDaily [⟨86400, 7, 3⟩]).map DayRec.date →
         ∃ v ∈ toDaily [⟨86400, 7, 3⟩], v.date = 0 ∧ r.views = some v.count ∧
           r.views_uniques = some v.uniques) :=
  C4_outer_join_completeness [⟨0, 5, 2⟩] [⟨86400, 7, 3⟩]
    (by decide) (by decide) 0 (by decide)

/-- After any successful call, every date of the new-data table is present
in the resulting file. -/
theorem df_new_dates_subset_fileAfter {clones views : List SeriesRec}
    {file : Option CsvFile} {out : RunOutput}
    (h : fetch_and_update_csv clones views file = .ok out) :
    ∀ r ∈ df_new clones views, r.date ∈ out.fileAfter.rows.map TrafficRow.date := by
  rcases fetch_ok_inv h with ⟨hf, hout⟩ | ⟨f, hf, he, hout⟩ | ⟨f, hf, hne, hout⟩
  · subst hout
    intro r hr
    exact List.mem_map.mpr ⟨r, hr, rfl⟩
  · subst hout
    intro r hr
    have hforall := List.filter_eq_nil_iff.mp he r hr
    have hcont : (f.rows.map TrafficRow.date).contains r.date = true := by
      revert hforall
      cases hcontb : (f.rows.map TrafficRow.date).contains r.date <;> simp
    exact List.mem_of_elem_eq_true hcont
  · subst hout
    intro r hr
    rw [mem_dates_sortByDate, List.map_append, List.mem_append]
    by_cases hcont : (f.rows.map TrafficRow.date).contains r.date
    · exact .inl (List.mem_of_elem_eq_true hcont)
    · right
      have hcf : (f.rows.map TrafficRow.date).contains r.date = false := by
        revert hcont
        cases (f.rows.map TrafficRow.date).contains r.date <;> simp
      have hmem : r ∈ df_append clones views f := by
        rw [df_append, List.mem_filter]
        refine ⟨hr, ?_⟩
        rw [hcf]
        rfl
      exact List.mem_map.mpr ⟨r, hmem, rfl⟩

/-- C1: running the pipeline a second time with the same fetched clone/view
data leaves the persisted dataset unchanged — after any successful call,
every date of the merged table is already present in the file, so the second
call takes the no-write branch, returns the file unchanged (`written =
false`) and prints the "no new data" message. -/
theorem C1_idempotent_second_run {clones views : List SeriesRec}
    {file : Option CsvFile} {out : RunOutput}
    (h : fetch_and_update_csv clones views file = .ok out) :
    fetch_and_update_csv clones views (some out.fileAfter) =
      .ok ⟨out.fileAfter.rows, out.fileAfter, false,
           "Aucune nouvelle donnée à ajouter au CSV."⟩ := by
  obtain ⟨h1, h2⟩ := fetch_nonempty h
  have hcov := df_new_dates_subset_fileAfter h
  have he : df_append clones views out.fileAfter = [] := by
    rw [df_append, List.filter_eq_nil_iff]
    intro r hr
    have hmem := hcov r hr
    have hcont : (out.fileAfter.rows.map TrafficRow.date).contains r.date = true :=
      List.elem_eq_true_of_mem hmem
    intro hbad
    rw [hcont] at hbad
    simp at hbad
  exact fetch_some_noappend_eq h1 h2 he

/-- C1 witness: a first run on an absent file persists days 0 and 1; the
second run with the same fetched data is a no-op on the persisted file. -/
theorem C1_idempotent_second_run_witness :
    fetch_and_update_csv [⟨0, 5, 2⟩] [⟨86400, 7, 3⟩]
        (some ⟨csvHeader, [⟨0, some 5, some 2, none, none⟩,
                           ⟨1, none, none, some 7, some 3⟩]⟩) =
      .ok ⟨[⟨0, some 5, some 2, none, none⟩, ⟨1, none, none, some 7, some 3⟩],
           ⟨csvHeader, [⟨0, some 5, some 2, none, none⟩,
                        ⟨1, none, none, some 7, some 3⟩]⟩,
           false, "Aucune nouvelle donnée à ajouter au CSV."⟩ :=
  @C1_idempotent_second_run [⟨0, 5, 2⟩] [⟨86400, 7, 3⟩] none
    ⟨[⟨0, some 5, some 2, none, none⟩, ⟨1, none, none, some 7, some 3⟩],
     ⟨csvHeader, [⟨0, some 5, some 2, none, none⟩,
                  ⟨1, none, none, some 7, some 3⟩]⟩,
     true, "CSV créé avec 2 lignes : traffic_data.csv"⟩
    rfl

/-- C6: the persisted dataset is append-only with respect to dates — for
every call of `fetch_and_update_csv` that completes, every previously
persisted row (hence every previously persisted date) is still present in
the file afterwards; no row is ever removed. -/
theorem C6_append_only {clones views : List SeriesRec} {file : Option CsvFile}
    {out : RunOutput}
    (h : fetch_and_update_csv clones views file = .ok out) :
    (∀ r ∈ csvRows file, r ∈ out.fileAfter.rows) ∧
    (∀ d ∈ (csvRows file).map TrafficRow.date,
       d ∈ out.fileAfter.rows.map TrafficRow.date) := by
  have hrow : ∀ r ∈ csvRows file, r ∈ out.fileAfter.rows := by
    rcases fetch_ok_inv h with ⟨hf, hout⟩ | ⟨f, hf, he, hout⟩ | ⟨f, hf, hne, hout⟩
    · subst hf
      intro r hr
      simp [csvRows] at hr
    · subst hf
      subst hout
      intro r hr
      exact hr
    · subst hf
      subst hout
      intro r hr
      exact mem_sortByDate.mpr (List.mem_append.mpr (.inl hr))
  refine ⟨hrow, ?_⟩
  intro d hd
  rcases List.mem_map.mp hd with ⟨r, hr, hrd⟩
  exact List.mem_map.mpr ⟨r, hrow r hr, hrd⟩

/-- C6 witness: the file persists day 0; fetching days 1 and 2 appends them
while the day-0 row survives. -/
theorem C6_append_only_witness :
    (∀ r ∈ csvRows (some ⟨csvHeader, [⟨0, some 1, some 1, some 1, some 1⟩]⟩),
       r ∈ [⟨0, some 1, some 1, some 1, some 1⟩,
            ⟨1, some 4, some 2, none, none⟩,
            ⟨2, none, none, some 6, some 3⟩]) ∧
    (∀ d ∈ (csvRows (some ⟨csvHeader, [⟨0, some 1, some 1, some 1, some 1⟩]⟩)).map
         TrafficRow.date,
       d ∈ ([⟨0, some 1, some 1, some 1, some 1⟩,
             ⟨1, some 4, some 2, none, none⟩,
             ⟨2, none, none, some 6, some 3⟩] : List TrafficRow).map TrafficRow.date) :=
  @C6_append_only [⟨86400, 4, 2⟩] [⟨172800, 6, 3⟩]
    (some ⟨csvHeader, [⟨0, some 1, some 1, some 1, some 1⟩]⟩)
    ⟨[⟨0, some 1, some 1, some 1, some 1⟩,
      ⟨1, some 4, some 2, none, none⟩,
      ⟨2, none, none, some 6, some 3⟩],
     ⟨csvHeader, [⟨0, some 1, some 1, some 1, some 1⟩,
                  ⟨1, some 4, some 2, none, none⟩,
                  ⟨2, none, none, some 6, some 3⟩]⟩,
     true, "Ajout de 2 nouvelles lignes au CSV : traffic_data.csv"⟩
    rfl

/-- C7: rows already in the persisted dataset are never modified by a merge —
every existing row survives unchanged, every row of the updated file is
either an old row or a genuinely new-dated row of the fetch, and on any
previously persisted date the updated file holds exactly the original row,
even where the fresh fetch reports values for that date. -/
theorem C7_existing_rows_untouched (clones views : List SeriesRec)
    (f : CsvFile) (out : RunOutput)
    (hf : (f.rows.map TrafficRow.date).Nodup)
    (h : fetch_and_update_csv clones views (some f) = .ok out) :
    (∀ r ∈ f.rows, r ∈ out.fileAfter.rows) ∧
    (∀ r ∈ out.fileAfter.rows,
       r ∈ f.rows ∨ (r ∈ df_new clones views ∧ r.date ∉ f.rows.map TrafficRow.date)) ∧
    (∀ d ∈ f.rows.map TrafficRow.date,
       out.fileAfter.rows.filter (fun r => r.date == d) =
         f.rows.filter (fun r => r.date == d)) := by
  rcases fetch_ok_inv h with ⟨hfile, _⟩ | ⟨f', hfile, he, hout⟩ | ⟨f', hfile, hne, hout⟩
  · exact Option.noConfusion hfile
  · injection hfile with hff
    subst hff
    subst hout
    exact ⟨fun r hr => hr, fun r hr => .inl hr, fun d _ => rfl⟩
  · injection hfile with hff
    subst hff
    subst hout
    have happmem : ∀ r ∈ df_append clones views f,
        r ∈ df_new clones views ∧ r.date ∉ f.rows.map TrafficRow.date := by
      intro r hr
      rcases List.mem_filter.mp hr with ⟨hrn, hpred⟩
      refine ⟨hrn, ?_⟩
      intro hmem
      have hcont : (f.rows.map TrafficRow.date).contains r.date = true :=
        List.elem_eq_true_of_mem hmem
      rw [hcont] at hpred
      simp at hpred
    refine ⟨?_, ?_, ?_⟩
    · intro r hr
      exact mem_sortByDate.mpr (List.mem_append.mpr (.inl hr))
    · intro r hr
      rcases List.mem_append.mp (mem_sortByDate.mp hr) with hold | hnew
      · exact .inl hold
      · exact .inr (happmem r hnew)
    · intro d hd
      have hfilapp : (df_append clones views f).filter (fun r => r.date == d) = [] := by
        rw [List.filter_eq_nil_iff]
        intro r hr hrd
        exact (happmem r hr).2 ((beq_iff_eq.mp hrd).symm ▸ hd)
      have hperm : List.Perm
          ((sortByDate (f.rows ++ df_append clones views f)).filter (fun r => r.date == d))
          (f.rows.filter (fun r => r.date == d)) := by
        have h1 := (sortByDate_perm (f.rows ++ df_append clones views f)).filter
          (fun r => r.date == d)
        rw [List.filter_append, hfilapp, List.append_nil] at h1
        exact h1
      have hlen : (f.rows.filter (fun r => r.date == d)).length = 1 := by
        rw [← List.countP_eq_length_filter, countP_key_eq TrafficRow.date hf d, if_pos hd]
      rcases List.length_eq_one.mp hlen with ⟨r0, hr0⟩
      rw [hr0] at hperm ⊢
      exact List.perm_singleton.mp hperm

/-- C7 witness: the file persists days 0, 1, 2; the fetch reports fresh
values for days 1, 2, 3 — only the day-3 row is appended and the old rows
keep their original metric values. -/
theorem C7_existing_rows_untouched_witness :
    (∀ r ∈ ({ header := csvHeader,
              rows := [⟨0, some 1, some 1, some 1, some 1⟩,
                       ⟨1, some 2, some 2, some 2, some 2⟩,
                       ⟨2, some 3, some 3, some 3, some 3⟩] } : CsvFile).rows,
       r ∈ [⟨0, some 1, some 1, some 1, some 1⟩,
            ⟨1, some 2, some 2, some 2, some 2⟩,
            ⟨2, some 3, some 3, some 3, some 3⟩,
            ⟨3, some 12, some 6, some 22, some 9⟩]) ∧
    (∀ r ∈ ([⟨0, some 1, some 1, some 1, some 1⟩,
             ⟨1, some 2, some 2, some 2, some 2⟩,
             ⟨2, some 3, some 3, some 3, some 3⟩,
             ⟨3, some 12, some 6, some 22, some 9⟩] : List TrafficRow),
       r ∈ ({ header := csvHeader,
              rows := [⟨0, some 1, some 1, some 1, some 1⟩,
                       ⟨1, some 2, some 2, some 2, some 2⟩,
                       ⟨2, some 3, some 3, some 3, some 3⟩] } : CsvFile).rows ∨
       (r ∈ df_new [⟨86400, 10, 4⟩, ⟨172800, 11, 5⟩, ⟨259200, 12, 6⟩]
              [⟨86400, 20, 7⟩, ⟨172800, 21, 8⟩, ⟨259200, 22, 9⟩] ∧
        r.date ∉ (({ header := csvHeader,
                     rows := [⟨0, some 1, some 1, some 1, some 1⟩,
                              ⟨1, some 2, some 2, some 2, some 2⟩,
                              ⟨2, some 3, some 3, some 3, some 3⟩] } : CsvFile).rows.map
            TrafficRow.date))) ∧
    (∀ d ∈ (({ header := csvHeader,
               rows := [⟨0, some 1, some 1, some 1, some 1⟩,
                        ⟨1, some 2, some 2, some 2, some 2⟩,
                        ⟨2, some 3, some 3, some 3, some 3⟩] } : CsvFile).rows.map
          TrafficRow.date),
       ([⟨0, some 1, some 1, some 1, some 1⟩,
         ⟨1, some 2, some 2, some 2, some 2⟩,
         ⟨2, some 3, some 3, some 3, some 3⟩,
         ⟨3, some 12, some 6, some 22, some 9⟩] : List TrafficRow).filter
           (fun r => r.date == d) =
         ({ header := csvHeader,
            rows := [⟨0, some 1, some 1, some 1, some 1⟩,
                     ⟨1, some 2, some 2, some 2, some 2⟩,
                     ⟨2, some 3, some 3, some 3, some 3⟩] } : CsvFile).rows.filter
           (fun r => r.date == d)) :=
  C7_existing_rows_untouched
    [⟨86400, 10, 4⟩, ⟨172800, 11, 5⟩, ⟨259200, 12, 6⟩]
    [⟨86400, 20, 7⟩, ⟨172800, 21, 8⟩, ⟨259200, 22, 9⟩]
    { header := csvHeader,
      rows := [⟨0, some 1, some 1, some 1, some 1⟩,
               ⟨1, some 2, some 2, some 2, some 2⟩,
               ⟨2, some 3, some 3, some 3, some 3⟩] }
    ⟨[⟨0, some 1, some 1, some 1, some 1⟩,
      ⟨1, some 2, some 2, some 2, some 2⟩,
      ⟨2, some 3, some 3, some 3, some 3⟩,
      ⟨3, some 12, some 6, some 22, some 9⟩],
     ⟨csvHeader, [⟨0, some 1, some 1, some 1, some 1⟩,
                  ⟨1, some 2, some 2, some 2, some 2⟩,
                  ⟨2, some 3, some 3, some 3, some 3⟩,
                  ⟨3, some 12, some 6, some 22, some 9⟩]⟩,
     true, "Ajout de 1 nouvelles lignes au CSV : traffic_data.csv"⟩
    (by decide) rfl

/-- Appending the genuinely new rows and re-sorting keeps the dates
distinct, provided the existing file and both series have distinct dates. -/
theorem nodup_dates_updated {clones views : List SeriesRec} {f : CsvFile}
    (hcl : ((toDaily clones).map DayRec.date).Nodup)
    (hvw : ((toDaily views).map DayRec.date).Nodup)
    (hnf : (f.rows.map TrafficRow.date).Nodup) :
    ((sortByDate (f.rows ++ df_append clones views f)).map TrafficRow.date).Nodup := by
  apply nodup_dates_sortByDate.mpr
  rw [List.map_append]
  apply List.Nodup.append hnf
  · have hsub : List.Sublist ((df_append clones views f).map TrafficRow.date)
        ((df_new clones views).map TrafficRow.date) := by
      rw [df_append]
      exact (List.filter_sublist _).map TrafficRow.date
    exact (nodup_dates_df_new hcl hvw).sublist hsub
  · intro a haf haapp
    rcases List.mem_map.mp haapp with ⟨r, hr, hrd⟩
    rcases List.mem_filter.mp hr with ⟨_, hpred⟩
    have hcont : (f.rows.map TrafficRow.date).contains r.date = true :=
      List.elem_eq_true_of_mem (hrd.symm ▸ haf)
    rw [hcont] at hpred
    simp at hpred

/-- C5: after every successful run the persisted dataset is strictly sorted
ascending by date with unique dates, on first-run creation as well as on
every subsequent append, assuming the fetched series each contain at most
one record per calendar date (and, inductively, that an already existing
file satisfies the invariant). -/
theorem C5_sorted_unique (clones views : List SeriesRec) (file : Option CsvFile)
    (out : RunOutput)
    (hcl : ((toDaily clones).map DayRec.date).Nodup)
    (hvw : ((toDaily views).map DayRec.date).Nodup)
    (hfile : ∀ f, file = some f →
       List.Pairwise (fun a b : TrafficRow => a.date < b.date) f.rows)
    (h : fetch_and_update_csv clones views file = .ok out) :
    List.Pairwise (fun a b : TrafficRow => a.date < b.date) out.fileAfter.rows := by
  rcases fetch_ok_inv h with ⟨hf, hout⟩ | ⟨f, hf, he, hout⟩ | ⟨f, hf, hne, hout⟩
  · subst hout
    exact pairwise_lt_of_sorted_nodup (sorted_df_new clones views)
      (nodup_dates_df_new hcl hvw)
  · subst hout
    exact hfile f hf
  · subst hout
    have hpf := hfile f hf
    have hnf : (f.rows.map TrafficRow.date).Nodup :=
      (List.pairwise_map).mpr (hpf.imp fun hlt => Nat.ne_of_lt hlt)
    exact pairwise_lt_of_sorted_nodup (sortByDate_sorted _)
      (nodup_dates_updated hcl hvw hnf)

/-- C5 witness: a first run over a clone record on day 0 and a view record
on day 1 creates a file whose rows are strictly ascending by date. -/
theorem C5_sorted_unique_witness :
    List.Pairwise (fun a b : TrafficRow => a.date < b.date)
      (CsvFile.rows ⟨csvHeader, [⟨0, some 5, some 2, none, none⟩,
                                 ⟨1, none, none, some 7, some 3⟩]⟩) :=
  C5_sorted_unique [⟨0, 5, 2⟩] [⟨86400, 7, 3⟩] none
    ⟨[⟨0, some 5, some 2, none, none⟩, ⟨1, none, none, some 7, some 3⟩],
     ⟨csvHeader, [⟨0, some 5, some 2, none, none⟩, ⟨1, none, none, some 7, some 3⟩]⟩,
     true, "CSV créé avec 2 lignes : traffic_data.csv"⟩
    (by decide) (by decide) (fun f hf => Option.noConfusion hf) rfl

/-- C9: the persisted flat file keeps the fixed header and column order
`date, clones, clones_uniques, views, views_uniques` on both the first-run
creation path and the append path, with one data row per date (the dates of
the rows are distinct, given distinct dates in the fetched series and in the
pre-existing file). -/
theorem C9_csv_shape (clones views : List SeriesRec) (file : Option CsvFile)
    (out : RunOutput)
    (hcl : ((toDaily clones).map DayRec.date).Nodup)
    (hvw : ((toDaily views).map DayRec.date).Nodup)
    (hhead : ∀ f, file = some f → f.header = csvHeader)
    (hrows : ∀ f, file = some f → (f.rows.map TrafficRow.date).Nodup)
    (h : fetch_and_update_csv clones views file = .ok out) :
    out.fileAfter.header = csvHeader ∧
    (out.fileAfter.rows.map TrafficRow.date).Nodup := by
  rcases fetch_ok_inv h with ⟨hf, hout⟩ | ⟨f, hf, he, hout⟩ | ⟨f, hf, hne, hout⟩
  · subst hout
    exact ⟨rfl, nodup_dates_df_new hcl hvw⟩
  · subst hout
    exact ⟨hhead f hf, hrows f hf⟩
  · subst hout
    exact ⟨hhead f hf, nodup_dates_updated hcl hvw (hrows f hf)⟩

/-- C9 witness: the first run writes the fixed header and one row per date. -/
theorem C9_csv_shape_witness :
    CsvFile.header ⟨csvHeader, [⟨0, some 5, some 2, none, none⟩,
                                ⟨1, none, none, some 7, some 3⟩]⟩ = csvHeader ∧
    ((CsvFile.rows ⟨csvHeader, [⟨0, some 5, some 2, none, none⟩,
                                ⟨1, none, none, some 7, some 3⟩]⟩).map
        TrafficRow.date).Nodup :=
  C9_csv_shape [⟨0, 5, 2⟩] [⟨86400, 7, 3⟩] none
    ⟨[⟨0, some 5, some 2, none, none⟩, ⟨1, none, none, some 7, some 3⟩],
     ⟨csvHeader, [⟨0, some 5, some 2, none, none⟩, ⟨1, none, none, some 7, some 3⟩]⟩,
     true, "CSV créé avec 2 lignes : traffic_data.csv"⟩
    (by decide) (by decide) (fun f hf => Option.noConfusion hf)
    (fun f hf => Option.noConfusion hf) rfl

/-- C3 counterexample: a run whose clones and views fetches succeed (writing
the CSV) but whose referrers fetch fails is neither fully complete (no HTML
report is produced) nor free of persisted change (the CSV file was created),
refuting the all-or-nothing claim at this concrete input. -/
theorem C3_counterexample :
    (mainRun ["sniffTraffic.py", "owner", "repo"] (some "tok")
        (.ok [⟨0, 5, 2⟩]) (.ok [⟨0, 7, 3⟩]) (.error "HTTP 500") none).htmlWritten = false ∧
    (mainRun ["sniffTraffic.py", "owner", "repo"] (some "tok")
        (.ok [⟨0, 5, 2⟩]) (.ok [⟨0, 7, 3⟩]) (.error "HTTP 500") none).csvAfter ≠ none := by
  constructor
  · rfl
  · intro hbad
    exact Option.noConfusion hbad

/-- C3 amended: a failing run produces no HTML report, and the persisted CSV
is either exactly what it was before the run (the case for usage errors,
missing token, failed clones fetch, failed views fetch, or a merge error) or
— only when both series fetches and the merge succeeded and the referrers
fetch then failed — the already-updated post-merge file.  The run is
therefore not all-or-nothing: a referrers-fetch failure can leave an updated
dataset behind without a rendered report. -/
theorem C3_failure_containment (argv : List String) (tok : Option String)
    (cres vres : Except String (List SeriesRec))
    (rres : Except String (List ReferrerRec)) (file : Option CsvFile)
    (hfail : (mainRun argv tok cres vres rres file).exitCode ≠ 0) :
    (mainRun argv tok cres vres rres file).htmlWritten = false ∧
    ((mainRun argv tok cres vres rres file).csvAfter = file ∨
     ∃ clones views o, cres = .ok clones ∧ vres = .ok views ∧
       fetch_and_update_csv clones views file = .ok o ∧
       (mainRun argv tok cres vres rres file).csvAfter = some o.fileAfter ∧
       ∃ e, rres = .error e) := by
  rcases argv with _ | ⟨a, _ | ⟨b, _ | ⟨c, _ | ⟨d, rest⟩⟩⟩⟩
  · exact ⟨rfl, .inl rfl⟩
  · exact ⟨rfl, .inl rfl⟩
  · exact ⟨rfl, .inl rfl⟩
  · rcases tok with _ | t
    · exact ⟨rfl, .inl rfl⟩
    · by_cases ht : t = ""
      · subst ht
        exact ⟨rfl, .inl rfl⟩
      · rcases cres with ec | clones
        · simp only [mainRun, if_neg ht]
          exact ⟨trivial, .inl trivial⟩
        · rcases vres with ev | views
          · simp only [mainRun, if_neg ht]
            exact ⟨trivial, .inl trivial⟩
          · rcases hfu : fetch_and_update_csv clones views file with ef | o
            · simp only [mainRun, if_neg ht, hfu]
              exact ⟨trivial, .inl trivial⟩
            · rcases rres with er | refs
              · simp only [mainRun, if_neg ht, hfu]
                exact ⟨trivial, .inr ⟨clones, views, o, rfl, rfl, hfu, rfl, er, rfl⟩⟩
              · exfalso
                apply hfail
                simp only [mainRun, if_neg ht, hfu]
  · exact ⟨rfl, .inl rfl⟩

/-- C3 witness: a run with the wrong argument count fails and leaves the
CSV state untouched with no report. -/
theorem C3_failure_containment_witness :
    (mainRun ["sniffTraffic.py"] (some "tok") (.ok []) (.ok []) (.ok [])
        none).htmlWritten = false ∧
    ((mainRun ["sniffTraffic.py"] (some "tok") (.ok []) (.ok []) (.ok [])
        none).csvAfter = none ∨
     ∃ clones views o, (.ok [] : Except String (List SeriesRec)) = .ok clones ∧
       (.ok [] : Except String (List SeriesRec)) = .ok views ∧
       fetch_and_update_csv clones views none = .ok o ∧
       (mainRun ["sniffTraffic.py"] (some "tok") (.ok []) (.ok []) (.ok [])
         none).csvAfter = some o.fileAfter ∧
       ∃ e, (.ok [] : Except String (List ReferrerRec)) = .error e) :=
  C3_failure_containment ["sniffTraffic.py"] (some "tok") (.ok []) (.ok []) (.ok [])
    none (by decide)

/-- C8: pre-flight validation has no side effects.  With an argument count
other than exactly two positional arguments (`len(sys.argv) != 3`), the
program prints the usage message and exits with status 1 before any network
or file activity; with a correct argument count but the `GITHUB_TOKEN`
variable unset, it reports the missing token and exits with status 1 before
any network activity — in both cases the only performed effect is the
diagnostic `print`. -/
theorem C8_preflight_no_side_effects (argv : List String) (tok : Option String)
    (cres vres : Except String (List SeriesRec))
    (rres : Except String (List ReferrerRec)) (file : Option CsvFile) :
    (argv.length ≠ 3 →
       mainRun argv tok cres vres rres file =
         ⟨1, [.printMsg "Usage: python get_traffic_dashboard.py <owner> <repo>"],
          file, false⟩) ∧
    (argv.length = 3 → tok = none →
       mainRun argv tok cres vres rres file =
         ⟨1, [.printMsg "Erreur: définir GITHUB_TOKEN"], file, false⟩) ∧
    ((argv.length ≠ 3 ∨ tok = none) →
       ∀ e ∈ (mainRun argv tok cres vres rres file).effects,
         e.touchesWorld = false) := by
  rcases argv with _ | ⟨a, _ | ⟨b, _ | ⟨c, _ | ⟨d, rest⟩⟩⟩⟩
  · refine ⟨fun _ => rfl, fun hlen => absurd hlen (by simp), fun _ => ?_⟩
    intro e he
    rcases List.mem_singleton.mp he with rfl
    rfl
  · refine ⟨fun _ => rfl, fun hlen => absurd hlen (by simp), fun _ => ?_⟩
    intro e he
    rcases List.mem_singleton.mp he with rfl
    rfl
  · refine ⟨fun _ => rfl, fun hlen => absurd hlen (by simp), fun _ => ?_⟩
    intro e he
    rcases List.mem_singleton.mp he with rfl
    rfl
  · refine ⟨fun hlen => absurd rfl hlen, ?_, ?_⟩
    · intro _ htok
      subst htok
      rfl
    · intro hpre
      rcases hpre with hlen | htok
      · exact absurd rfl hlen
      · subst htok
        intro e he
        rcases List.mem_singleton.mp he with rfl
        rfl
  · refine ⟨fun _ => rfl, fun hlen => absurd hlen (by simp), fun _ => ?_⟩
    intro e he
    rcases List.mem_singleton.mp he with rfl
    rfl

/-- C8 witness: one invocation with a single argument exits via the usage
message, one with two arguments but no token exits via the token message;
neither performs any network or file effect. -/
theorem C8_preflight_no_side_effects_witness :
    mainRun ["sniffTraffic.py"] (some "tok") (.ok []) (.ok []) (.ok []) none =
      ⟨1, [.printMsg "Usage: python get_traffic_dashboard.py <owner> <repo>"],
       none, false⟩ ∧
    mainRun ["sniffTraffic.py", "owner", "repo"] none (.ok []) (.ok []) (.ok []) none =
      ⟨1, [.printMsg "Erreur: définir GITHUB_TOKEN"], none, false⟩ ∧
    ∀ e ∈ (mainRun ["sniffTraffic.py"] (some "tok") (.ok []) (.ok []) (.ok [])
        none).effects, e.touchesWorld = false :=
  ⟨(C8_preflight_no_side_effects ["sniffTraffic.py"] (some "tok")
      (.ok []) (.ok []) (.ok []) none).1 (by decide),
   (C8_preflight_no_side_effects ["sniffTraffic.py", "owner", "repo"] none
      (.ok []) (.ok []) (.ok []) none).2.1 (by decide) rfl,
   (C8_preflight_no_side_effects ["sniffTraffic.py"] (some "tok")
      (.ok []) (.ok []) (.ok []) none).2.2 (.inl (by decide))⟩
